import Mathlib

/-!
Verification of the collaborative node-graph backend: the context-chain
builder (backend/services/context_service.py) and the real-time room
registry / broadcast engine (backend/services/websocket_manager.py,
backend/routes/websocket.py).

The storage collaborator (a relational store reached through keyed
queries) is modelled as in-memory lists of edge and node rows plus
fault-injection flags: a flag set means the corresponding query raises,
which the embedding surfaces as Except.error where the source lets the
exception propagate, and as the caught-and-degraded result where the
source wraps the call in a try/except handler.
-/

/-- Python truthiness of an optional string: None and the empty string
are falsy, every other string is truthy. -/
def truthy (o : Option String) : Bool := !(o.getD "" == "")

/-- Edge row of the edges table (directed source to target inside a
board, with the soft-deletion flag). -/
structure Edge where
  id : String
  board_id : String
  source_node_id : String
  target_node_id : String
  is_deleted : Bool
deriving DecidableEq

/-- Node row of the nodes table (the columns the core reads or writes). -/
structure Node where
  id : String
  board_id : String
  title : Option String
  prompt : Option String
  response : Option String
  context : Option String
  x : Int
  y : Int
deriving DecidableEq

/-- Storage snapshot plus fault-injection flags: edgesFault makes the
select on edges raise, nodesFault the selects on nodes, updateFault the
update on nodes. -/
structure Storage where
  edges : List Edge
  nodes : List Node
  edgesFault : Bool
  nodesFault : Bool
  updateFault : Bool
deriving DecidableEq

/-- Python str.join: interleaves the separator between the elements. -/
def joinSep (sep : String) : List String → String
  | [] => ""
  | [x] => x
  | x :: y :: rest => x ++ sep ++ joinSep sep (y :: rest)

/-- The fifty-dash rule line used between parent blocks. -/
def rule50 : String := String.mk (List.replicate 50 '-')

/-- The fifty-equals rule line used by the highlight builder. -/
def eqrule50 : String := String.mk (List.replicate 50 '=')

/-- context_service.get_parent_nodes: selects the edges whose target is
node_id within board_id (the source applies no is_deleted filter),
then fetches the nodes whose id is among the collected source ids.
Any raised storage fault is caught and degraded to the empty list. -/
def get_parent_nodes (st : Storage) (node_id board_id : String) : List Node :=
  if st.edgesFault then []
  else
    let edges := st.edges.filter (fun e => e.target_node_id == node_id && e.board_id == board_id)
    if edges.isEmpty then []
    else
      let parent_ids := edges.map (fun e => e.source_node_id)
      if st.nodesFault then []
      else st.nodes.filter (fun n => parent_ids.contains n.id)

/-- Variant of get_parent_nodes that follows the spec wording, which asks
for find_edges(board_id, target_node_id, is_deleted=false): soft-deleted
edges are excluded from the traversal. Stated only to compare with the
code, which omits the filter. -/
def get_parent_nodes_spec (st : Storage) (node_id board_id : String) : List Node :=
  if st.edgesFault then []
  else
    let edges := st.edges.filter (fun e =>
      e.target_node_id == node_id && e.board_id == board_id && !e.is_deleted)
    if edges.isEmpty then []
    else
      let parent_ids := edges.map (fun e => e.source_node_id)
      if st.nodesFault then []
      else st.nodes.filter (fun n => parent_ids.contains n.id)

/-- The per-parent block of build_context_from_parents: bracketed title,
User line, Assistant line, the inlined stored context of the parent, and
the rule line, each kept only when the field is truthy. -/
def nodeParts (p : Node) : List String :=
  (if truthy p.title then ["\n[" ++ p.title.getD "" ++ "]"] else [])
    ++ (if truthy p.prompt then ["User: " ++ p.prompt.getD ""] else [])
    ++ (if truthy p.response then ["Assistant: " ++ p.response.getD ""] else [])
    ++ (if truthy p.context then ["\n" ++ p.context.getD ""] else [])
    ++ ["\n" ++ rule50 ++ "\n"]

/-- The loop of build_context_from_parents over the parent list. -/
def partsFor : List Node → List String
  | [] => []
  | p :: rest => nodeParts p ++ partsFor rest

/-- The composition step of build_context_from_parents: None on an empty
parent list, otherwise header, parent blocks and footer joined by
newlines. -/
def compose_context (parents : List Node) : Option String :=
  if parents.isEmpty then none
  else some (joinSep "\n"
    (["=== Context from Parent Nodes ===\n"] ++ partsFor parents
      ++ ["=================================\n"]))

/-- context_service.build_context_from_parents. -/
def build_context_from_parents (st : Storage) (node_id board_id : String) : Option String :=
  compose_context (get_parent_nodes st node_id board_id)

/-- context_service.update_node_context: builds the context and, when it
is truthy, writes it onto the node row with the given id; a raised
storage fault is caught and degraded to None with the write dropped. -/
def update_node_context (st : Storage) (node_id board_id : String) :
    Storage × Option String :=
  let context := build_context_from_parents st node_id board_id
  if truthy context then
    if st.updateFault then (st, none)
    else
      ({ st with nodes := st.nodes.map (fun n =>
          if n.id == node_id then { n with context := some (context.getD "") } else n) },
        context)
  else (st, context)

/-- The list of parts assembled by build_context_with_highlight for an
existing parent row. -/
def highlightParts (parent : Node) (highlighted_text : String) : List String :=
  (if truthy parent.context then [parent.context.getD "", "\n" ++ eqrule50 ++ "\n"] else [])
    ++ (if truthy parent.prompt then ["Parent Node - User: " ++ parent.prompt.getD ""] else [])
    ++ (if truthy parent.response then ["Parent Node - Assistant: " ++ parent.response.getD ""] else [])
    ++ ["\n" ++ eqrule50, "=== HIGHLIGHTED TEXT (Focus on this) ===",
        "\x22" ++ highlighted_text ++ "\x22", eqrule50 ++ "\n"]

/-- context_service.build_context_with_highlight: selects the node row
with the given id (the board_id argument is never used by the source
query), returns None when no row matches, and otherwise joins the parts.
The function has no try/except handler, so a storage fault on the select
propagates to the caller, modelled as Except.error. -/
def build_context_with_highlight (st : Storage)
    (parent_node_id highlighted_text board_id : String) :
    Except Unit (Option String) :=
  if st.nodesFault then Except.error ()
  else
    match st.nodes.filter (fun n => n.id == parent_node_id) with
    | [] => Except.ok none
    | parent :: _ => Except.ok (some (joinSep "\n" (highlightParts parent highlighted_text)))

/-- Substring containment stated by explicit decomposition. -/
def ContainsStr (s t : String) : Prop := ∃ pre post, s = pre ++ t ++ post

/-- Failing input for the soft-deletion claim: the only edge of board b
targets node n and carries is_deleted = true. -/
def edgeC1 : Edge :=
  { id := "e1", board_id := "b", source_node_id := "p", target_node_id := "n",
    is_deleted := true }

/-- The source node referenced by the soft-deleted edge. -/
def parentC1 : Node :=
  { id := "p", board_id := "b", title := some "T", prompt := some "q",
    response := some "r", context := none, x := 0, y := 0 }

/-- Storage holding only the soft-deleted edge and its source node. -/
def stC1 : Storage :=
  { edges := [edgeC1], nodes := [parentC1],
    edgesFault := false, nodesFault := false, updateFault := false }

/-- Storage whose node reads raise, used to exhibit fault propagation. -/
def stFaultNodes : Storage :=
  { edges := [], nodes := [], edgesFault := false, nodesFault := true,
    updateFault := false }

/-- Healthy empty storage. -/
def stEmptyOk : Storage :=
  { edges := [], nodes := [], edgesFault := false, nodesFault := false,
    updateFault := false }

/-- The single parent row of the compose_context example: title P1,
prompt hi, response hello, no stored context. -/
def nodeC9 : Node :=
  { id := "p1", board_id := "b", title := some "P1", prompt := some "hi",
    response := some "hello", context := none, x := 0, y := 0 }

/-- A parent row with stored context, for the highlight witness. -/
def nodeC4 : Node :=
  { id := "p", board_id := "b", title := none, prompt := some "q",
    response := some "r", context := some "CTX", x := 0, y := 0 }

/-- Healthy storage holding just nodeC4. -/
def stC4 : Storage :=
  { edges := [], nodes := [nodeC4], edgesFault := false, nodesFault := false,
    updateFault := false }

/-- A live edge from parent p to child n, for the chaining witness. -/
def edgeC8 : Edge :=
  { id := "e2", board_id := "b", source_node_id := "p", target_node_id := "n",
    is_deleted := false }

/-- Parent row whose stored context G-CTX must chain into the child. -/
def parentC8 : Node :=
  { id := "p", board_id := "b", title := some "P", prompt := some "q",
    response := some "a", context := some "G-CTX", x := 0, y := 0 }

/-- The child row to be refreshed. -/
def childC8 : Node :=
  { id := "n", board_id := "b", title := none, prompt := none,
    response := none, context := none, x := 0, y := 0 }

/-- Healthy storage for the chaining witness. -/
def stC8 : Storage :=
  { edges := [edgeC8], nodes := [parentC8, childC8],
    edgesFault := false, nodesFault := false, updateFault := false }

/- ------------------------------------------------------------------ -/
/- Real-time collaboration layer                                       -/
/- ------------------------------------------------------------------ -/

/-- First-match association-list lookup, the model of a dict read. -/
def alookup {α β : Type} [DecidableEq α] (k : α) : List (α × β) → Option β
  | [] => none
  | (k', v) :: rest => if k' = k then some v else alookup k rest

/-- Outbound events of the collaboration channel. Dict payloads that the
handlers only relay are modelled as opaque strings. -/
inductive Event where
  | user_joined (board_id : String) (user_count : Nat)
  | user_left (board_id : String) (user_count : Nat)
  | error (message : String)
  | node_moved (node_id : String) (x y : Int)
  | node_created (node_data : String)
  | node_updated (node_id : String) (updates : String)
  | node_deleted (node_id : String)
  | edge_created (edge_data : String)
  | edge_deleted (edge_id : String)
  | cursor_moved (cursor_data : String)
deriving DecidableEq

/-- The ConnectionManager registry state: the room map board_id to the
set of member connections (a dict of sets, modelled as an association
list of duplicate-free lists) and the reverse map connection to board.
Connections are identified by naturals. The connection_users map only
stores optional display metadata and never affects rooms or counts, so
it is not modelled. -/
structure ManagerState where
  active_connections : List (String × List Nat)
  connection_boards : List (Nat × String)
deriving DecidableEq

/-- The manager starts with no rooms and no connections. -/
def initManager : ManagerState :=
  { active_connections := [], connection_boards := [] }

/-- Set-add of a connection to a room list. -/
def addOne (l : List Nat) (c : Nat) : List Nat :=
  if l.contains c then l else l ++ [c]

/-- Dict update active_connections[b].add(c), creating the room when it
is absent (the two steps of connect). -/
def roomAdd : List (String × List Nat) → String → Nat → List (String × List Nat)
  | [], b, c => [(b, [c])]
  | (b', l) :: rest, b, c =>
      if b' = b then (b', addOne l c) :: rest else (b', l) :: roomAdd rest b c

/-- Dict update connection_boards[c] = b. -/
def cbSet : List (Nat × String) → Nat → String → List (Nat × String)
  | [], c, b => [(c, b)]
  | (c', b') :: rest, c, b =>
      if c' = c then (c, b) :: rest else (c', b') :: cbSet rest c b

/-- Dict removal connection_boards.pop(c, None). -/
def cbRemove (m : List (Nat × String)) (c : Nat) : List (Nat × String) :=
  m.filter (fun p => !(p.1 == c))

/-- The room update of disconnect: discard c from room b and delete the
room entry when the remaining set is empty. -/
def roomRemove : List (String × List Nat) → String → Nat → List (String × List Nat)
  | [], _, _ => []
  | (b', l) :: rest, b, c =>
      if b' = b then
        (let l2 := l.filter (fun x => !(x == c))
         if l2.isEmpty then rest else (b', l2) :: rest)
      else (b', l) :: roomRemove rest b c

/-- The registry mutation of ConnectionManager.connect: admit c into the
room of b (creating it if absent) and point connection_boards[c] at b. -/
def registry_join (s : ManagerState) (c : Nat) (b : String) : ManagerState :=
  { active_connections := roomAdd s.active_connections b c,
    connection_boards := cbSet s.connection_boards c b }

/-- ConnectionManager.disconnect: a no-op when c is not registered;
otherwise remove c from its room (pruning the room when emptied) and
drop its connection_boards entry. The source emits no event here. -/
def disconnect (s : ManagerState) (c : Nat) : ManagerState :=
  match alookup c s.connection_boards with
  | none => s
  | some b =>
      { active_connections := roomRemove s.active_connections b c,
        connection_boards := cbRemove s.connection_boards c }

/-- ConnectionManager.get_room_size: 0 for unknown boards. -/
def get_room_size (s : ManagerState) (b : String) : Nat :=
  ((alookup b s.active_connections).getD []).length

/-- The member list of room b, empty when the room is absent. -/
def roomOf (s : ManagerState) (b : String) : List Nat :=
  (alookup b s.active_connections).getD []

/-- ConnectionManager.broadcast_to_room: nothing for an unknown board;
otherwise send msg to each member except the excluded one, collect the
connections whose send raised (fails gives the transport outcome per
connection), and afterwards disconnect each of them. Returns the new
state and the per-recipient delivery log. -/
def broadcast_to_room (s : ManagerState) (fails : Nat → Bool) (b : String)
    (msg : Event) (exclude : Option Nat) : ManagerState × List (Nat × Event) :=
  match alookup b s.active_connections with
  | none => (s, [])
  | some conns =>
      let targets := match exclude with
        | some e => conns.filter (fun c => !(c == e))
        | none => conns
      let delivered := (targets.filter (fun c => !(fails c))).map (fun c => (c, msg))
      let failed := targets.filter (fun c => fails c)
      (failed.foldl disconnect s, delivered)

/-- ConnectionManager.send_personal_message: unicast; a raised send is
caught and the connection disconnected. -/
def send_personal_message (s : ManagerState) (fails : Nat → Bool) (c : Nat)
    (msg : Event) : ManagerState × List (Nat × Event) :=
  if fails c then (disconnect s c, []) else (s, [(c, msg)])

/-- ConnectionManager.connect: registry admission followed by the
user_joined broadcast to the room, excluding the newcomer and carrying
the updated member count. -/
def connect (s : ManagerState) (fails : Nat → Bool) (c : Nat) (b : String) :
    ManagerState × List (Nat × Event) :=
  let s1 := registry_join s c b
  broadcast_to_room s1 fails b (Event.user_joined b (get_room_size s1 b)) (some c)

/-- The WebSocketDisconnect branch of websocket_endpoint: disconnect the
leaver, then broadcast user_left with the post-removal member count to
the whole room (no exclusion). -/
def websocket_disconnect_path (s : ManagerState) (fails : Nat → Bool) (c : Nat)
    (b : String) : ManagerState × List (Nat × Event) :=
  let s1 := disconnect s c
  broadcast_to_room s1 fails b (Event.user_left b (get_room_size s1 b)) none

/-- A registry operation: a join of a fresh connection into a board room
or a leave. A send-failure eviction during a broadcast appears in a
trace as the leave of the failing connection. -/
inductive RegOp where
  | join (c : Nat) (b : String)
  | leave (c : Nat)
deriving DecidableEq

/-- One registry step. -/
def regStep (s : ManagerState) : RegOp → ManagerState
  | RegOp.join c b => registry_join s c b
  | RegOp.leave c => disconnect s c

/-- Run a trace of registry operations from a given state. -/
def runFrom (s : ManagerState) : List RegOp → ManagerState
  | [] => s
  | op :: tr => runFrom (regStep s op) tr

/-- Run a trace from the initial manager state. -/
def run (tr : List RegOp) : ManagerState := runFrom initManager tr

/-- Reference model of the registry, kept as just the map connection to
board: a join points the connection at the board, a leave erases it. -/
def specStep (m : List (Nat × String)) : RegOp → List (Nat × String)
  | RegOp.join c b => cbSet m c b
  | RegOp.leave c => cbRemove m c

/-- Reference run over a trace. -/
def specRunFrom (m : List (Nat × String)) : List RegOp → List (Nat × String)
  | [] => m
  | op :: tr => specRunFrom (specStep m op) tr

/-- The connections registered after a trace: those that joined and have
not left since. -/
def registeredAfter (tr : List RegOp) : List (Nat × String) := specRunFrom [] tr

/-- The number of connections that joined board b and have not left. -/
def joinedCount (tr : List RegOp) (b : String) : Nat :=
  ((registeredAfter tr).filter (fun p => p.2 == b)).length

/-- A trace is well formed relative to the set of currently registered
connections when every join is of a connection not currently registered:
this is what the transport guarantees, since a websocket joins exactly
once, on endpoint entry, and a reconnect is a new connection. -/
def wellFormedFrom (reg : List Nat) : List RegOp → Bool
  | [] => true
  | RegOp.join c _ :: tr => !(reg.contains c) && wellFormedFrom (c :: reg) tr
  | RegOp.leave c :: tr => wellFormedFrom (reg.filter (fun x => !(x == c))) tr

/-- Well-formedness from the empty registry. -/
def wellFormed (tr : List RegOp) : Bool := wellFormedFrom [] tr

/-- Structural invariant of reachable manager states: dict keys are
unique on both maps, room member lists are duplicate-free, no present
room is empty, and room membership agrees with the reverse map. -/
structure RegInv (s : ManagerState) : Prop where
  cbNodup : (s.connection_boards.map Prod.fst).Nodup
  roomKeysNodup : (s.active_connections.map Prod.fst).Nodup
  roomNodup : ∀ b l, alookup b s.active_connections = some l → l.Nodup
  roomNonempty : ∀ b l, alookup b s.active_connections = some l → l ≠ []
  memIff : ∀ c b, c ∈ roomOf s b ↔ (c, b) ∈ s.connection_boards

/-- An inbound client message after JSON parsing: the type tag and the
kind-specific fields, each optional exactly as a dict read is. Dict
payloads that are only relayed are opaque strings. -/
structure Message where
  type : Option String
  node_id : Option String
  x : Option Int
  y : Option Int
  node_data : Option String
  updates : Option String
  edge_data : Option String
  edge_id : Option String
  cursor_data : Option String
deriving DecidableEq

/-- Rendering of an optional string the way a python f-string prints it. -/
def typeShow : Option String → String
  | none => "None"
  | some t => t

/-- routes/websocket.handle_node_moved: drop the event silently when
node_id is falsy or x or y is absent; otherwise update the node row
(a raised storage fault is caught and only logged) and rebroadcast the
same payload to the room excluding the sender. -/
def handle_node_moved (s : ManagerState) (st : Storage) (fails : Nat → Bool)
    (b : String) (m : Message) (sender : Nat) :
    ManagerState × Storage × List (Nat × Event) :=
  if !(truthy m.node_id) || m.x.isNone || m.y.isNone then (s, st, [])
  else
    let nid := m.node_id.getD ""
    let xv := m.x.getD 0
    let yv := m.y.getD 0
    let st2 := if st.updateFault then st
      else { st with nodes := st.nodes.map (fun nd =>
        if nd.id == nid && nd.board_id == b then { nd with x := xv, y := yv } else nd) }
    let r := broadcast_to_room s fails b (Event.node_moved nid xv yv) (some sender)
    (r.1, st2, r.2)

/-- routes/websocket.handle_node_created: relay-only. -/
def handle_node_created (s : ManagerState) (st : Storage) (fails : Nat → Bool)
    (b : String) (m : Message) (sender : Nat) :
    ManagerState × Storage × List (Nat × Event) :=
  if !(truthy m.node_data) then (s, st, [])
  else
    let r := broadcast_to_room s fails b (Event.node_created (m.node_data.getD "")) (some sender)
    (r.1, st, r.2)

/-- routes/websocket.handle_node_updated: relay-only, updates defaulted
to the empty payload. -/
def handle_node_updated (s : ManagerState) (st : Storage) (fails : Nat → Bool)
    (b : String) (m : Message) (sender : Nat) :
    ManagerState × Storage × List (Nat × Event) :=
  if !(truthy m.node_id) then (s, st, [])
  else
    let r := broadcast_to_room s fails b
      (Event.node_updated (m.node_id.getD "") (m.updates.getD "")) (some sender)
    (r.1, st, r.2)

/-- routes/websocket.handle_node_deleted: relay-only. -/
def handle_node_deleted (s : ManagerState) (st : Storage) (fails : Nat → Bool)
    (b : String) (m : Message) (sender : Nat) :
    ManagerState × Storage × List (Nat × Event) :=
  if !(truthy m.node_id) then (s, st, [])
  else
    let r := broadcast_to_room s fails b (Event.node_deleted (m.node_id.getD "")) (some sender)
    (r.1, st, r.2)

/-- routes/websocket.handle_edge_created: relay-only. -/
def handle_edge_created (s : ManagerState) (st : Storage) (fails : Nat → Bool)
    (b : String) (m : Message) (sender : Nat) :
    ManagerState × Storage × List (Nat × Event) :=
  if !(truthy m.edge_data) then (s, st, [])
  else
    let r := broadcast_to_room s fails b (Event.edge_created (m.edge_data.getD "")) (some sender)
    (r.1, st, r.2)

/-- routes/websocket.handle_edge_deleted: relay-only. -/
def handle_edge_deleted (s : ManagerState) (st : Storage) (fails : Nat → Bool)
    (b : String) (m : Message) (sender : Nat) :
    ManagerState × Storage × List (Nat × Event) :=
  if !(truthy m.edge_id) then (s, st, [])
  else
    let r := broadcast_to_room s fails b (Event.edge_deleted (m.edge_id.getD "")) (some sender)
    (r.1, st, r.2)

/-- routes/websocket.handle_cursor_moved: relay-only. -/
def handle_cursor_moved (s : ManagerState) (st : Storage) (fails : Nat → Bool)
    (b : String) (m : Message) (sender : Nat) :
    ManagerState × Storage × List (Nat × Event) :=
  if !(truthy m.cursor_data) then (s, st, [])
  else
    let r := broadcast_to_room s fails b (Event.cursor_moved (m.cursor_data.getD "")) (some sender)
    (r.1, st, r.2)

/-- The dispatch chain of websocket_endpoint on a parsed message; an
unrecognized type tag is answered with a unicast error to the sender. -/
def dispatch_message (s : ManagerState) (st : Storage) (fails : Nat → Bool)
    (b : String) (m : Message) (sender : Nat) :
    ManagerState × Storage × List (Nat × Event) :=
  match m.type with
  | some "node_moved" => handle_node_moved s st fails b m sender
  | some "node_created" => handle_node_created s st fails b m sender
  | some "node_updated" => handle_node_updated s st fails b m sender
  | some "node_deleted" => handle_node_deleted s st fails b m sender
  | some "edge_created" => handle_edge_created s st fails b m sender
  | some "edge_deleted" => handle_edge_deleted s st fails b m sender
  | some "cursor_moved" => handle_cursor_moved s st fails b m sender
  | t =>
      let r := send_personal_message s fails sender
        (Event.error ("Unknown message type: " ++ typeShow t))
      (r.1, st, r.2)

/-- One iteration of the websocket_endpoint receive loop: a payload that
json.loads rejects (modelled as none) is answered with a unicast Invalid
JSON error to the sender and nothing else; a parsed message goes through
the dispatch chain. The session stays in its loop in both cases. -/
def handle_inbound (s : ManagerState) (st : Storage) (fails : Nat → Bool)
    (b : String) (sender : Nat) :
    Option Message → ManagerState × Storage × List (Nat × Event)
  | none =>
      let r := send_personal_message s fails sender (Event.error "Invalid JSON")
      (r.1, st, r.2)
  | some m => dispatch_message s st fails b m sender

/-- The websocket_endpoint receive loop over a finite inbound stream,
accumulating the delivery log. -/
def run_session (fails : Nat → Bool) (b : String) (sender : Nat) :
    ManagerState → Storage → List (Option Message) →
    ManagerState × Storage × List (Nat × Event)
  | s, st, [] => (s, st, [])
  | s, st, inb :: rest =>
      let r1 := handle_inbound s st fails b sender inb
      let r2 := run_session fails b sender r1.1 r1.2.1 rest
      (r2.1, r2.2.1, r1.2.2 ++ r2.2.2)

/-- Two-member room on board b, built by a well-formed trace. -/
def sPair : ManagerState := run [RegOp.join 1 "b", RegOp.join 2 "b"]

/-- The C6 witness trace: two joins into room A, then one leave. -/
def trC6 : List RegOp := [RegOp.join 1 "A", RegOp.join 2 "A", RegOp.leave 1]

/-- A well-formed node_moved message. -/
def msgMove : Message :=
  { type := some "node_moved", node_id := some "n1", x := some 10, y := some 20,
    node_data := none, updates := none, edge_data := none, edge_id := none,
    cursor_data := none }

/- ------------------------------------------------------------------ -/
/- Theorems                                                            -/
/- ------------------------------------------------------------------ -/

theorem joinSep_cons (sep x : String) (l : List String) (h : l ≠ []) :
    joinSep sep (x :: l) = x ++ sep ++ joinSep sep l := by
  cases l with
  | nil => exact absurd rfl h
  | cons y t => rfl

theorem joinSep_cons_exists (sep x : String) (l : List String) :
    ∃ t, joinSep sep (x :: l) = x ++ t := by
  cases l with
  | nil => exact ⟨"", (String.append_empty x).symm⟩
  | cons y t =>
      exact ⟨sep ++ joinSep sep (y :: t), String.append_assoc x sep (joinSep sep (y :: t))⟩

theorem append_ne_empty_of_left (x t : String) (hx : x ≠ "") : x ++ t ≠ "" := by
  intro h
  apply hx
  have hlen := congrArg String.length h
  rw [String.length_append] at hlen
  have h0 : String.length "" = 0 := rfl
  rw [h0] at hlen
  have hx0 : x.length = 0 := by omega
  exact String.ext (List.length_eq_zero.mp hx0)

theorem joinSep_split (sep a : String) (l1 l2 : List String) :
    ∃ pre post, joinSep sep (l1 ++ a :: l2) = pre ++ a ++ post := by
  induction l1 with
  | nil =>
      cases l2 with
      | nil =>
          refine ⟨"", "", ?_⟩
          show a = "" ++ a ++ ""
          rw [String.empty_append, String.append_empty]
      | cons y t =>
          refine ⟨"", sep ++ joinSep sep (y :: t), ?_⟩
          show a ++ sep ++ joinSep sep (y :: t) = "" ++ a ++ (sep ++ joinSep sep (y :: t))
          rw [String.empty_append, String.append_assoc]
  | cons x xs ih =>
      obtain ⟨pre, post, hp⟩ := ih
      have hne : xs ++ a :: l2 ≠ [] := by simp
      refine ⟨x ++ sep ++ pre, post, ?_⟩
      rw [List.cons_append, joinSep_cons sep x _ hne, hp]
      simp [String.append_assoc]

theorem contains_of_mem_joinSep (sep elem x y c : String) (l : List String)
    (hm : elem ∈ l) (he : elem = x ++ c ++ y) :
    ContainsStr (joinSep sep l) c := by
  obtain ⟨s, t, rfl⟩ := List.append_of_mem hm
  obtain ⟨pre, post, hp⟩ := joinSep_split sep elem s t
  refine ⟨pre ++ x, y ++ post, ?_⟩
  rw [hp, he]
  simp [String.append_assoc]

theorem mem_partsFor (x : String) (P : Node) (l : List Node)
    (hP : P ∈ l) (hx : x ∈ nodeParts P) : x ∈ partsFor l := by
  induction l with
  | nil => cases hP
  | cons q t ih =>
      rw [partsFor]
      rcases List.mem_cons.mp hP with h | h
      · subst h; exact List.mem_append_left _ hx
      · exact List.mem_append_right _ (ih h)

theorem compose_context_ne_empty (parents : List Node) (s : String)
    (h : compose_context parents = some s) : s ≠ "" := by
  cases parents with
  | nil => simp [compose_context] at h
  | cons p rest =>
      have h2 : some (joinSep "\n" ("=== Context from Parent Nodes ===\n"
          :: (partsFor (p :: rest) ++ ["=================================\n"]))) = some s := h
      injection h2 with h3
      obtain ⟨t, ht⟩ := joinSep_cons_exists "\n" "=== Context from Parent Nodes ===\n"
        (partsFor (p :: rest) ++ ["=================================\n"])
      rw [← h3, ht]
      exact append_ne_empty_of_left _ _ (by decide)

/-- C9: composing context from an empty parent list returns None, and
composing from the single parent P1 with prompt hi, response hello and
no stored context returns a string containing hi, hello and P1. -/
theorem C9_compose_empty_and_single_parent :
    compose_context [] = none
    ∧ ∃ s, compose_context [nodeC9] = some s
        ∧ ContainsStr s "hi" ∧ ContainsStr s "hello" ∧ ContainsStr s "P1" := by
  refine ⟨rfl, ?_⟩
  refine ⟨_, rfl, ?_, ?_, ?_⟩
  · exact contains_of_mem_joinSep _ "User: hi" "User: " "" "hi" _ (by decide) (by decide)
  · exact contains_of_mem_joinSep _ "Assistant: hello" "Assistant: " "" "hello" _
      (by decide) (by decide)
  · exact contains_of_mem_joinSep _ "\n[P1]" "\n[" "]" "P1" _ (by decide) (by decide)

/-- C1: evaluation at the failing input: the only edge of board b is
soft-deleted and targets node n, yet get_parent_nodes returns its source
node, so a soft-deleted edge does contribute a parent node (and hence
text to any context string built from it), while the spec-faithful
variant with the is_deleted filter returns nothing. -/
theorem C1_soft_deleted_edge_still_contributes :
    edgeC1.is_deleted = true
    ∧ get_parent_nodes stC1 "n" "b" = [parentC1]
    ∧ get_parent_nodes_spec stC1 "n" "b" = [] := by
  exact ⟨rfl, by decide, by decide⟩

theorem get_parent_nodes_edgesFault (st : Storage) (node_id board_id : String) :
    get_parent_nodes { st with edgesFault := true } node_id board_id = [] := rfl

theorem get_parent_nodes_nodesFault (st : Storage) (node_id board_id : String) :
    get_parent_nodes { st with nodesFault := true } node_id board_id = [] := by
  unfold get_parent_nodes
  by_cases he : st.edgesFault
  · simp [he]
  · simp [he]

/-- C3 counterexample: with a nodes-read fault, build_context_with_highlight
propagates the storage exception to its caller instead of degrading to a
null or empty result. -/
theorem C3_counterexample_highlight_fault_propagates :
    build_context_with_highlight stFaultNodes "p" "h" "b" = Except.error () := rfl

/-- C3 amended: get_parent_nodes, build_context_from_parents and
update_node_context catch every storage-layer fault and degrade to an
empty or None result with storage untouched, but the fourth operation,
build_context_with_highlight, propagates a nodes-read fault to its
caller. -/
theorem C3_amended_fault_handling (st : Storage) (node_id board_id pid h : String) :
    get_parent_nodes { st with edgesFault := true } node_id board_id = []
    ∧ get_parent_nodes { st with nodesFault := true } node_id board_id = []
    ∧ build_context_from_parents { st with edgesFault := true } node_id board_id = none
    ∧ build_context_from_parents { st with nodesFault := true } node_id board_id = none
    ∧ update_node_context { st with edgesFault := true } node_id board_id
        = ({ st with edgesFault := true }, none)
    ∧ (update_node_context { st with updateFault := true } node_id board_id).2 = none
    ∧ (update_node_context { st with updateFault := true } node_id board_id).1
        = { st with updateFault := true }
    ∧ build_context_with_highlight { st with nodesFault := true } pid h board_id
        = Except.error () := by
  have g1 := get_parent_nodes_edgesFault st node_id board_id
  have g2 := get_parent_nodes_nodesFault st node_id board_id
  have b1 : build_context_from_parents { st with edgesFault := true } node_id board_id
      = none := by
    unfold build_context_from_parents
    rw [g1]
    rfl
  have b2 : build_context_from_parents { st with nodesFault := true } node_id board_id
      = none := by
    unfold build_context_from_parents
    rw [g2]
    rfl
  have u1 : update_node_context { st with edgesFault := true } node_id board_id
      = ({ st with edgesFault := true }, none) := by
    unfold update_node_context
    rw [b1]
    rfl
  have u2 : update_node_context { st with updateFault := true } node_id board_id
      = ({ st with updateFault := true }, none) := by
    unfold update_node_context
    cases hb : build_context_from_parents { st with updateFault := true } node_id board_id with
    | none => rfl
    | some s =>
        have hs : s ≠ "" := compose_context_ne_empty _ s hb
        have ht : truthy (some s) = true := by
          unfold truthy
          simpa using hs
        simp [ht]
  exact ⟨g1, g2, b1, b2, u1, by rw [u2], by rw [u2], rfl⟩

/-- C4 counterexample: on healthy storage holding no node with the
requested id, the call returns None as a normal result instead of
failing with NotFound. -/
theorem C4_counterexample_missing_parent_yields_none :
    build_context_with_highlight stEmptyOk "p" "h" "b" = Except.ok none := rfl

/-- C4 amended: on healthy storage, when a node with the requested id
exists the result is a string containing the highlighted text verbatim,
but when no such node exists the call returns None rather than failing
with NotFound. -/
theorem C4_amended_highlight_verbatim_or_none (st : Storage) (pid h b : String)
    (hf : st.nodesFault = false) :
    ((∃ n ∈ st.nodes, n.id = pid) →
      ∃ s, build_context_with_highlight st pid h b = Except.ok (some s)
        ∧ ContainsStr s h)
    ∧ ((∀ n ∈ st.nodes, n.id ≠ pid) →
      build_context_with_highlight st pid h b = Except.ok none) := by
  constructor
  · rintro ⟨n, hn, hid⟩
    unfold build_context_with_highlight
    rw [hf]
    cases hfil : st.nodes.filter (fun m => m.id == pid) with
    | nil =>
        exfalso
        have hmem := List.filter_eq_nil_iff.mp hfil n hn
        simp [hid] at hmem
    | cons parent rest =>
        simp only [Bool.false_eq_true, if_false]
        refine ⟨_, rfl, ?_⟩
        apply contains_of_mem_joinSep "\n" ("\x22" ++ h ++ "\x22") "\x22" "\x22" h _ ?_ rfl
        unfold highlightParts
        simp [List.mem_append]
  · intro hall
    unfold build_context_with_highlight
    rw [hf]
    have hfil : st.nodes.filter (fun m => m.id == pid) = [] := by
      apply List.filter_eq_nil_iff.mpr
      intro a ha
      simpa using hall a ha
    rw [hfil]
    rfl

/-- Witness for C4: a concrete parent row with id p gives a string
containing the highlighted text, and a missing id gives None. -/
theorem C4_amended_highlight_verbatim_or_none_witness :
    (∃ s, build_context_with_highlight stC4 "p" "HI" "b" = Except.ok (some s)
      ∧ ContainsStr s "HI")
    ∧ build_context_with_highlight stC4 "missing" "HI" "b" = Except.ok none :=
  ⟨(C4_amended_highlight_verbatim_or_none stC4 "p" "HI" "b" rfl).1 ⟨nodeC4, by decide, rfl⟩,
   (C4_amended_highlight_verbatim_or_none stC4 "missing" "HI" "b" rfl).2 (by decide)⟩

/-- C8: if a parent node P with nonempty stored context C is among the
parents of node n, then update_node_context on n (with a healthy update
path) returns a context string that contains C as a substring and writes
that same string onto every node row with id n. -/
theorem C8_parent_context_recursively_inlined (st : Storage) (n b C : String) (P : Node)
    (hP : P ∈ get_parent_nodes st n b) (hC : P.context = some C) (hCne : C ≠ "")
    (hUf : st.updateFault = false) :
    ∃ r, (update_node_context st n b).2 = some r ∧ ContainsStr r C
      ∧ ∀ m ∈ (update_node_context st n b).1.nodes, m.id = n → m.context = some r := by
  have htC : truthy (some C) = true := by
    unfold truthy
    simpa using hCne
  have hmemNP : ("\n" ++ C) ∈ nodeParts P := by
    unfold nodeParts
    rw [hC]
    simp [htC]
  have hmemParts := mem_partsFor ("\n" ++ C) P (get_parent_nodes st n b) hP hmemNP
  cases hps : get_parent_nodes st n b with
  | nil => rw [hps] at hP; cases hP
  | cons p rest =>
      rw [hps] at hmemParts
      have hcc2 : compose_context (p :: rest)
          = some (joinSep "\n" ("=== Context from Parent Nodes ===\n"
              :: (partsFor (p :: rest) ++ ["=================================\n"]))) := rfl
      have hbuild : build_context_from_parents st n b
          = some (joinSep "\n" ("=== Context from Parent Nodes ===\n"
              :: (partsFor (p :: rest) ++ ["=================================\n"]))) := by
        unfold build_context_from_parents
        rw [hps]
        exact hcc2
      have hJne := compose_context_ne_empty (p :: rest) _ hcc2
      have htJ : truthy (some (joinSep "\n" ("=== Context from Parent Nodes ===\n"
          :: (partsFor (p :: rest) ++ ["=================================\n"])))) = true := by
        unfold truthy
        simpa using hJne
      have hmemL : ("\n" ++ C) ∈ ("=== Context from Parent Nodes ===\n"
          :: (partsFor (p :: rest) ++ ["=================================\n"])) :=
        List.mem_cons_of_mem _ (List.mem_append_left _ hmemParts)
      have hcont := contains_of_mem_joinSep "\n" ("\n" ++ C) "\n" "" C _ hmemL
        (String.append_empty _).symm
      refine ⟨_, ?_, hcont, ?_⟩
      · unfold update_node_context
        rw [hbuild]
        simp [htJ, hUf]
      · intro m hm hmid
        unfold update_node_context at hm
        rw [hbuild] at hm
        simp only [htJ, hUf, if_true, if_false, Bool.false_eq_true] at hm
        obtain ⟨nd, hnd, hfm⟩ := List.mem_map.mp hm
        by_cases hb2 : nd.id == n
        · rw [← hfm]
          simp [hb2]
        · rw [← hfm] at hmid
          simp [hb2] at hmid
          exact absurd hmid (by simpa using hb2)

/-- Witness for C8 at a concrete grandparent chain: the parent row p
stores G-CTX and the refresh of child n returns and stores a context
containing G-CTX. -/
theorem C8_parent_context_recursively_inlined_witness :
    ∃ r, (update_node_context stC8 "n" "b").2 = some r ∧ ContainsStr r "G-CTX"
      ∧ ∀ m ∈ (update_node_context stC8 "n" "b").1.nodes, m.id = "n" → m.context = some r :=
  C8_parent_context_recursively_inlined stC8 "n" "b" "G-CTX" parentC8
    (by decide) rfl (by decide) rfl

theorem alookup_none_iff {α β : Type} [DecidableEq α] (k : α) (m : List (α × β)) :
    alookup k m = none ↔ k ∉ m.map Prod.fst := by
  induction m with
  | nil => simp [alookup]
  | cons p rest ih =>
      obtain ⟨k', v⟩ := p
      by_cases h : k' = k
      · subst h
        simp [alookup]
      · simp only [alookup, if_neg h, List.map_cons, List.mem_cons, ih]
        constructor
        · intro hn hor
          rcases hor with h1 | h2
          · exact h h1.symm
          · exact hn h2
        · exact fun hn hmem => hn (Or.inr hmem)

theorem alookup_mem {α β : Type} [DecidableEq α] (k : α) (v : β) (m : List (α × β))
    (h : alookup k m = some v) : (k, v) ∈ m := by
  induction m with
  | nil => cases h
  | cons p rest ih =>
      obtain ⟨k', v'⟩ := p
      by_cases hk : k' = k
      · subst hk
        simp [alookup] at h
        subst h
        exact List.mem_cons_self _ _
      · simp only [alookup, if_neg hk] at h
        exact List.mem_cons_of_mem _ (ih h)

theorem alookup_isSome_of_mem {α β : Type} [DecidableEq α] (k : α) (v : β)
    (m : List (α × β)) (h : (k, v) ∈ m) : (alookup k m).isSome = true := by
  induction m with
  | nil => cases h
  | cons p rest ih =>
      obtain ⟨k', v'⟩ := p
      by_cases hk : k' = k
      · subst hk
        simp [alookup]
      · rcases List.mem_cons.mp h with h1 | h2
        · exact absurd (congrArg Prod.fst h1).symm hk
        · simp only [alookup, if_neg hk]
          exact ih h2

theorem alookup_eq_of_mem_nodup {α β : Type} [DecidableEq α] (k : α) (v : β)
    (m : List (α × β)) (hnd : (m.map Prod.fst).Nodup) (h : (k, v) ∈ m) :
    alookup k m = some v := by
  induction m with
  | nil => cases h
  | cons p rest ih =>
      obtain ⟨k', v'⟩ := p
      simp only [List.map_cons, List.nodup_cons] at hnd
      rcases List.mem_cons.mp h with h1 | h2
      · cases h1
        simp [alookup]
      · by_cases hk : k' = k
        · subst hk
          exact absurd (List.mem_map_of_mem Prod.fst h2) hnd.1
        · simp only [alookup, if_neg hk]
          exact ih hnd.2 h2

theorem cbSet_absent (m : List (Nat × String)) (c : Nat) (b : String)
    (h : alookup c m = none) : cbSet m c b = m ++ [(c, b)] := by
  induction m with
  | nil => rfl
  | cons p rest ih =>
      obtain ⟨c', b'⟩ := p
      by_cases hc : c' = c
      · subst hc
        simp [alookup] at h
      · simp only [alookup, if_neg hc] at h
        simp [cbSet, hc, ih h]

theorem alookup_cbSet_self (m : List (Nat × String)) (c : Nat) (b : String) :
    alookup c (cbSet m c b) = some b := by
  induction m with
  | nil => simp [cbSet, alookup]
  | cons p rest ih =>
      obtain ⟨c', b'⟩ := p
      by_cases hc : c' = c
      · subst hc
        simp [cbSet, alookup]
      · simp [cbSet, hc, alookup, ih]

theorem alookup_cbSet_other (m : List (Nat × String)) (c x : Nat) (b : String)
    (hx : x ≠ c) : alookup x (cbSet m c b) = alookup x m := by
  have hcx : ¬ c = x := fun h => hx h.symm
  induction m with
  | nil => simp [cbSet, alookup, hcx]
  | cons p rest ih =>
      obtain ⟨c', b'⟩ := p
      by_cases hc : c' = c
      · subst hc
        simp [cbSet, alookup, hcx]
      · simp [cbSet, hc, alookup, ih]

theorem mem_cbRemove (m : List (Nat × String)) (c x : Nat) (b : String) :
    (x, b) ∈ cbRemove m c ↔ (x, b) ∈ m ∧ x ≠ c := by
  simp [cbRemove, List.mem_filter]

theorem alookup_cbRemove_self (m : List (Nat × String)) (c : Nat) :
    alookup c (cbRemove m c) = none := by
  rw [alookup_none_iff]
  intro hmem
  obtain ⟨p, hp, hfst⟩ := List.mem_map.mp hmem
  obtain ⟨hpm, hpc⟩ := List.mem_filter.mp hp
  simp [hfst] at hpc

theorem alookup_cbRemove_other (m : List (Nat × String)) (c x : Nat) (hx : x ≠ c) :
    alookup x (cbRemove m c) = alookup x m := by
  induction m with
  | nil => rfl
  | cons p rest ih =>
      obtain ⟨c', b'⟩ := p
      by_cases hc : c' = c
      · subst hc
        have hcx : ¬ c' = x := fun h => hx h.symm
        have hstep : cbRemove ((c', b') :: rest) c' = cbRemove rest c' := by
          simp [cbRemove]
        rw [hstep, ih]
        simp [alookup, hcx]
      · by_cases hcx : c' = x
        · subst hcx
          simp [cbRemove, alookup, hc]
        · have hstep : cbRemove ((c', b') :: rest) c = (c', b') :: cbRemove rest c := by
            simp [cbRemove, hc]
          rw [hstep]
          simp [alookup, hcx, ih]

theorem cbRemove_eq_of_absent (m : List (Nat × String)) (c : Nat)
    (h : alookup c m = none) : cbRemove m c = m := by
  apply List.filter_eq_self.mpr
  intro p hp
  rw [alookup_none_iff] at h
  have hne : p.1 ≠ c := fun hh => h (hh ▸ List.mem_map_of_mem Prod.fst hp)
  simpa using hne

theorem cbRemove_keys_sublist (m : List (Nat × String)) (c : Nat) :
    List.Sublist ((cbRemove m c).map Prod.fst) (m.map Prod.fst) :=
  (List.filter_sublist m).map Prod.fst

theorem mem_cbRemove_of_mem (m : List (Nat × String)) (c : Nat) (p : Nat × String)
    (h : p ∈ cbRemove m c) : p ∈ m := (List.mem_filter.mp h).1

theorem mem_addOne (l : List Nat) (c x : Nat) : x ∈ addOne l c ↔ x ∈ l ∨ x = c := by
  unfold addOne
  by_cases h : l.contains c
  · have hc : c ∈ l := by simpa using h
    simp only [h, if_true]
    constructor
    · exact Or.inl
    · rintro (hx | rfl)
      · exact hx
      · exact hc
  · have hcm : c ∉ l := by simpa using h
    simp [h, hcm]

theorem addOne_nodup (l : List Nat) (c : Nat) (h : l.Nodup) : (addOne l c).Nodup := by
  unfold addOne
  by_cases hc : l.contains c
  · have hcm : c ∈ l := by simpa using hc
    simpa [hc, hcm] using h
  · have hcm : c ∉ l := by simpa using hc
    simp [hc, hcm, List.nodup_append, h]

theorem addOne_ne_nil (l : List Nat) (c : Nat) : addOne l c ≠ [] := by
  unfold addOne
  by_cases hc : l.contains c
  · have hcm : c ∈ l := by simpa using hc
    simp only [hc, if_true]
    exact List.ne_nil_of_mem hcm
  · have hcm : c ∉ l := by simpa using hc
    simp [hc, hcm]

theorem alookup_roomAdd_self (rooms : List (String × List Nat)) (b : String) (c : Nat) :
    alookup b (roomAdd rooms b c) = some (addOne ((alookup b rooms).getD []) c) := by
  induction rooms with
  | nil => simp [roomAdd, alookup, addOne]
  | cons p rest ih =>
      obtain ⟨b', l⟩ := p
      by_cases hb : b' = b
      · subst hb
        simp [roomAdd, alookup]
      · simp [roomAdd, hb, alookup, ih]

theorem alookup_roomAdd_other (rooms : List (String × List Nat)) (b b' : String) (c : Nat)
    (hb : b' ≠ b) : alookup b' (roomAdd rooms b c) = alookup b' rooms := by
  have hbb : ¬ b = b' := fun h => hb h.symm
  induction rooms with
  | nil => simp [roomAdd, alookup, hbb]
  | cons p rest ih =>
      obtain ⟨b0, l⟩ := p
      by_cases h0 : b0 = b
      · subst h0
        simp [roomAdd, alookup, hbb]
      · simp [roomAdd, h0, alookup, ih]

theorem roomAdd_keys_present (rooms : List (String × List Nat)) (b : String) (c : Nat)
    (h : (alookup b rooms).isSome = true) :
    (roomAdd rooms b c).map Prod.fst = rooms.map Prod.fst := by
  induction rooms with
  | nil => simp [alookup] at h
  | cons p rest ih =>
      obtain ⟨b0, l⟩ := p
      by_cases h0 : b0 = b
      · subst h0
        simp [roomAdd]
      · simp only [alookup, if_neg h0] at h
        simp [roomAdd, h0, ih h]

theorem roomAdd_keys_absent (rooms : List (String × List Nat)) (b : String) (c : Nat)
    (h : alookup b rooms = none) :
    (roomAdd rooms b c).map Prod.fst = rooms.map Prod.fst ++ [b] := by
  induction rooms with
  | nil => rfl
  | cons p rest ih =>
      obtain ⟨b0, l⟩ := p
      by_cases h0 : b0 = b
      · subst h0
        simp [alookup] at h
      · simp only [alookup, if_neg h0] at h
        simp [roomAdd, h0, ih h]

theorem alookup_roomRemove_other (rooms : List (String × List Nat)) (b b' : String)
    (c : Nat) (hb : b' ≠ b) :
    alookup b' (roomRemove rooms b c) = alookup b' rooms := by
  have hbb : ¬ b = b' := fun h => hb h.symm
  induction rooms with
  | nil => rfl
  | cons p rest ih =>
      obtain ⟨b0, l⟩ := p
      by_cases h0 : b0 = b
      · subst h0
        by_cases he : (l.filter (fun x => !(x == c))).isEmpty
        · simp [roomRemove, he, alookup, hbb]
        · simp [roomRemove, he, alookup, hbb]
      · by_cases h1 : b0 = b'
        · subst h1
          simp [roomRemove, h0, alookup]
        · simp [roomRemove, h0, alookup, h1, ih]

theorem alookup_roomRemove_self (rooms : List (String × List Nat)) (b : String) (c : Nat)
    (hnd : (rooms.map Prod.fst).Nodup) :
    alookup b (roomRemove rooms b c)
      = (alookup b rooms).bind (fun l =>
          if (l.filter (fun x => !(x == c))).isEmpty then none
          else some (l.filter (fun x => !(x == c)))) := by
  induction rooms with
  | nil => rfl
  | cons p rest ih =>
      obtain ⟨b0, l⟩ := p
      simp only [List.map_cons, List.nodup_cons] at hnd
      by_cases h0 : b0 = b
      · subst h0
        have hrest : alookup b0 rest = none := (alookup_none_iff _ _).mpr hnd.1
        have hlhs : alookup b0 ((b0, l) :: rest) = some l := by simp [alookup]
        by_cases he : (l.filter (fun x => !(x == c))).isEmpty
        · have hrm : roomRemove ((b0, l) :: rest) b0 c = rest := by
            simp [roomRemove, he]
          rw [hrm, hrest, hlhs]
          show none = if (l.filter (fun x => !(x == c))).isEmpty then none
            else some (l.filter (fun x => !(x == c)))
          rw [if_pos he]
        · have hrm : roomRemove ((b0, l) :: rest) b0 c
              = (b0, l.filter (fun x => !(x == c))) :: rest := by
            simp [roomRemove, he]
          rw [hrm, hlhs]
          have halk : alookup b0 ((b0, l.filter (fun x => !(x == c))) :: rest)
              = some (l.filter (fun x => !(x == c))) := by simp [alookup]
          rw [halk]
          show some (l.filter (fun x => !(x == c)))
            = if (l.filter (fun x => !(x == c))).isEmpty then none
              else some (l.filter (fun x => !(x == c)))
          rw [if_neg he]
      · have hrm : roomRemove ((b0, l) :: rest) b c = (b0, l) :: roomRemove rest b c := by
          simp [roomRemove, h0]
        rw [hrm]
        have h1 : alookup b ((b0, l) :: roomRemove rest b c)
            = alookup b (roomRemove rest b c) := by simp [alookup, h0]
        have h2 : alookup b ((b0, l) :: rest) = alookup b rest := by simp [alookup, h0]
        rw [h1, h2, ih hnd.2]

theorem roomRemove_keys_sublist (rooms : List (String × List Nat)) (b : String) (c : Nat) :
    List.Sublist ((roomRemove rooms b c).map Prod.fst) (rooms.map Prod.fst) := by
  induction rooms with
  | nil => simp [roomRemove]
  | cons p rest ih =>
      obtain ⟨b0, l⟩ := p
      by_cases h0 : b0 = b
      · subst h0
        by_cases he : (l.filter (fun x => !(x == c))).isEmpty
        · simp only [roomRemove, he, if_true]
          exact List.sublist_cons_self _ _
        · simp only [roomRemove, he, Bool.false_eq_true, if_false, List.map_cons]
          exact List.Sublist.refl _
      · simp only [roomRemove, if_neg h0, List.map_cons]
        exact ih.cons₂ b0

theorem roomOf_def (s : ManagerState) (b : String) :
    roomOf s b = (alookup b s.active_connections).getD [] := rfl

theorem disconnect_of_not_registered (s : ManagerState) (c : Nat)
    (h : alookup c s.connection_boards = none) : disconnect s c = s := by
  unfold disconnect
  rw [h]

theorem RegInv_initManager : RegInv initManager := by
  constructor
  · simp [initManager]
  · simp [initManager]
  · intro b l hl
    cases hl
  · intro b l hl
    cases hl
  · intro c b
    simp [initManager, roomOf, alookup]

theorem RegInv_registry_join (s : ManagerState) (c : Nat) (b : String)
    (hInv : RegInv s) (hfree : alookup c s.connection_boards = none) :
    RegInv (registry_join s c b) := by
  obtain ⟨cbN, rkN, rN, rNe, mIff⟩ := hInv
  have hcbs : cbSet s.connection_boards c b = s.connection_boards ++ [(c, b)] :=
    cbSet_absent _ _ _ hfree
  have hcknotin : c ∉ s.connection_boards.map Prod.fst := (alookup_none_iff _ _).mp hfree
  constructor
  · show ((cbSet s.connection_boards c b).map Prod.fst).Nodup
    rw [hcbs]
    simp [List.nodup_append, cbN, hcknotin]
  · show ((roomAdd s.active_connections b c).map Prod.fst).Nodup
    cases hro : alookup b s.active_connections with
    | none =>
        rw [roomAdd_keys_absent _ _ _ hro]
        have hbnotin : b ∉ s.active_connections.map Prod.fst := (alookup_none_iff _ _).mp hro
        simp [List.nodup_append, rkN, hbnotin]
    | some l0 =>
        rw [roomAdd_keys_present _ _ _ (by rw [hro]; rfl)]
        exact rkN
  · intro b' l' hl
    by_cases hb : b' = b
    · subst hb
      rw [show alookup b' (registry_join s c b').active_connections
          = alookup b' (roomAdd s.active_connections b' c) from rfl,
        alookup_roomAdd_self] at hl
      injection hl with hl2
      subst hl2
      apply addOne_nodup
      cases hro : alookup b' s.active_connections with
      | none => exact List.nodup_nil
      | some l0 => exact rN _ _ hro
    · rw [show alookup b' (registry_join s c b).active_connections
          = alookup b' (roomAdd s.active_connections b c) from rfl,
        alookup_roomAdd_other _ _ _ _ hb] at hl
      exact rN _ _ hl
  · intro b' l' hl
    by_cases hb : b' = b
    · subst hb
      rw [show alookup b' (registry_join s c b').active_connections
          = alookup b' (roomAdd s.active_connections b' c) from rfl,
        alookup_roomAdd_self] at hl
      injection hl with hl2
      subst hl2
      exact addOne_ne_nil _ _
    · rw [show alookup b' (registry_join s c b).active_connections
          = alookup b' (roomAdd s.active_connections b c) from rfl,
        alookup_roomAdd_other _ _ _ _ hb] at hl
      exact rNe _ _ hl
  · intro c₀ b₀
    have hnew : roomOf (registry_join s c b) b₀
        = (alookup b₀ (roomAdd s.active_connections b c)).getD [] := rfl
    have hcbnew : (registry_join s c b).connection_boards
        = s.connection_boards ++ [(c, b)] := hcbs
    rw [hnew, hcbnew]
    by_cases hb : b₀ = b
    · subst hb
      rw [alookup_roomAdd_self, Option.getD_some, mem_addOne]
      rw [show (alookup b₀ s.active_connections).getD [] = roomOf s b₀ from rfl]
      rw [mIff c₀ b₀]
      simp [List.mem_append]
    · rw [alookup_roomAdd_other _ _ _ _ hb]
      rw [show (alookup b₀ s.active_connections).getD [] = roomOf s b₀ from rfl]
      rw [mIff c₀ b₀]
      simp [List.mem_append, hb]

theorem RegInv_disconnect (s : ManagerState) (c : Nat) (hInv : RegInv s) :
    RegInv (disconnect s c) := by
  obtain ⟨cbN, rkN, rN, rNe, mIff⟩ := hInv
  cases hreg : alookup c s.connection_boards with
  | none =>
      rw [disconnect_of_not_registered s c hreg]
      exact ⟨cbN, rkN, rN, rNe, mIff⟩
  | some b0 =>
      have hd : disconnect s c
          = { active_connections := roomRemove s.active_connections b0 c,
              connection_boards := cbRemove s.connection_boards c } := by
        unfold disconnect
        rw [hreg]
      rw [hd]
      constructor
      · exact cbN.sublist (cbRemove_keys_sublist _ _)
      · exact rkN.sublist (roomRemove_keys_sublist _ _ _)
      · intro b' l' hl
        by_cases hb : b' = b0
        · subst hb
          rw [show alookup b'
              ({ active_connections := roomRemove s.active_connections b' c,
                 connection_boards := cbRemove s.connection_boards c } :
                ManagerState).active_connections
              = alookup b' (roomRemove s.active_connections b' c) from rfl] at hl
          rw [alookup_roomRemove_self _ _ _ rkN] at hl
          cases hor : alookup b' s.active_connections with
          | none => rw [hor] at hl; cases hl
          | some l0 =>
              rw [hor] at hl
              have hl2 : (if (l0.filter (fun x => !(x == c))).isEmpty then none
                  else some (l0.filter (fun x => !(x == c)))) = some l' := hl
              by_cases he : (l0.filter (fun x => !(x == c))).isEmpty
              · rw [if_pos he] at hl2
                cases hl2
              · rw [if_neg he] at hl2
                injection hl2 with hl3
                subst hl3
                exact (rN _ _ hor).filter _
        · rw [show alookup b'
              ({ active_connections := roomRemove s.active_connections b0 c,
                 connection_boards := cbRemove s.connection_boards c } :
                ManagerState).active_connections
              = alookup b' (roomRemove s.active_connections b0 c) from rfl] at hl
          rw [alookup_roomRemove_other _ _ _ _ hb] at hl
          exact rN _ _ hl
      · intro b' l' hl
        by_cases hb : b' = b0
        · subst hb
          rw [show alookup b'
              ({ active_connections := roomRemove s.active_connections b' c,
                 connection_boards := cbRemove s.connection_boards c } :
                ManagerState).active_connections
              = alookup b' (roomRemove s.active_connections b' c) from rfl] at hl
          rw [alookup_roomRemove_self _ _ _ rkN] at hl
          cases hor : alookup b' s.active_connections with
          | none => rw [hor] at hl; cases hl
          | some l0 =>
              rw [hor] at hl
              have hl2 : (if (l0.filter (fun x => !(x == c))).isEmpty then none
                  else some (l0.filter (fun x => !(x == c)))) = some l' := hl
              by_cases he : (l0.filter (fun x => !(x == c))).isEmpty
              · rw [if_pos he] at hl2
                cases hl2
              · rw [if_neg he] at hl2
                injection hl2 with hl3
                subst hl3
                intro hnil
                rw [hnil] at he
                simp at he
        · rw [show alookup b'
              ({ active_connections := roomRemove s.active_connections b0 c,
                 connection_boards := cbRemove s.connection_boards c } :
                ManagerState).active_connections
              = alookup b' (roomRemove s.active_connections b0 c) from rfl] at hl
          rw [alookup_roomRemove_other _ _ _ _ hb] at hl
          exact rNe _ _ hl
      · intro c₀ b₀
        have hnew : roomOf
            ({ active_connections := roomRemove s.active_connections b0 c,
               connection_boards := cbRemove s.connection_boards c } : ManagerState) b₀
            = (alookup b₀ (roomRemove s.active_connections b0 c)).getD [] := rfl
        have hrhs : ((c₀, b₀) ∈ cbRemove s.connection_boards c)
            ↔ ((c₀, b₀) ∈ s.connection_boards ∧ c₀ ≠ c) := mem_cbRemove _ _ _ _
        rw [hnew, hrhs]
        by_cases hb : b₀ = b0
        · subst hb
          rw [alookup_roomRemove_self _ _ _ rkN]
          cases hor : alookup b₀ s.active_connections with
          | none =>
              have hmI := mIff c₀ b₀
              rw [roomOf_def, hor] at hmI
              simp only [Option.getD_none, List.not_mem_nil, false_iff] at hmI
              simp only [Option.none_bind, Option.getD_none, List.not_mem_nil, false_iff]
              intro hand
              exact hmI hand.1
          | some l0 =>
              have hmI := mIff c₀ b₀
              rw [roomOf_def, hor] at hmI
              have hstep : ((some l0).bind (fun l =>
                  if (l.filter (fun x => !(x == c))).isEmpty then none
                  else some (l.filter (fun x => !(x == c)))))
                  = (if (l0.filter (fun x => !(x == c))).isEmpty then none
                    else some (l0.filter (fun x => !(x == c)))) := rfl
              rw [hstep]
              by_cases he : (l0.filter (fun x => !(x == c))).isEmpty
              · rw [if_pos he]
                simp only [Option.getD_none, List.not_mem_nil, false_iff]
                intro hand
                have hc0 : c₀ ∈ l0 := by
                  have := hmI.mpr hand.1
                  simpa using this
                have : c₀ ∈ l0.filter (fun x => !(x == c)) := by
                  simp [List.mem_filter, hc0, hand.2]
                rw [List.isEmpty_iff] at he
                rw [he] at this
                cases this
              · rw [if_neg he]
                simp only [Option.getD_some, List.mem_filter]
                constructor
                · intro hand
                  refine ⟨hmI.mp (by simpa using hand.1), ?_⟩
                  have := hand.2
                  simpa using this
                · intro hand
                  refine ⟨by simpa using hmI.mpr hand.1, by simpa using hand.2⟩
        · rw [alookup_roomRemove_other _ _ _ _ hb]
          rw [show (alookup b₀ s.active_connections).getD [] = roomOf s b₀ from rfl]
          rw [mIff c₀ b₀]
          constructor
          · intro hmem
            refine ⟨hmem, ?_⟩
            intro hc0
            subst hc0
            have := alookup_eq_of_mem_nodup _ _ _ cbN hmem
            rw [hreg] at this
            injection this with hbb
            exact hb hbb.symm
          · exact fun hand => hand.1

theorem regStep_cb (s : ManagerState) (op : RegOp) :
    (regStep s op).connection_boards = specStep s.connection_boards op := by
  cases op with
  | join c b => rfl
  | leave c =>
      cases hreg : alookup c s.connection_boards with
      | none =>
          rw [show regStep s (RegOp.leave c) = disconnect s c from rfl,
            disconnect_of_not_registered s c hreg]
          show s.connection_boards = cbRemove s.connection_boards c
          exact (cbRemove_eq_of_absent _ _ hreg).symm
      | some b0 =>
          show (disconnect s c).connection_boards = cbRemove s.connection_boards c
          unfold disconnect
          rw [hreg]

theorem runFrom_cb (tr : List RegOp) : ∀ s : ManagerState,
    (runFrom s tr).connection_boards = specRunFrom s.connection_boards tr := by
  induction tr with
  | nil => intro s; rfl
  | cons op rest ih =>
      intro s
      show (runFrom (regStep s op) rest).connection_boards
        = specRunFrom s.connection_boards (op :: rest)
      rw [ih (regStep s op), regStep_cb]
      rfl

theorem runFrom_inv (tr : List RegOp) : ∀ (s : ManagerState) (reg : List Nat),
    RegInv s →
    (∀ x, reg.contains x = true ↔ (alookup x s.connection_boards).isSome = true) →
    wellFormedFrom reg tr = true →
    RegInv (runFrom s tr) := by
  induction tr with
  | nil => exact fun s reg hInv _ _ => hInv
  | cons op rest ih =>
      intro s reg hInv hreg hwf
      cases op with
      | join c b =>
          have hwf2 : ((!(reg.contains c)) && wellFormedFrom (c :: reg) rest) = true := hwf
          rw [Bool.and_eq_true, Bool.not_eq_true'] at hwf2
          obtain ⟨hfreeB, hwfrest⟩ := hwf2
          have hfree : alookup c s.connection_boards = none := by
            cases hh : alookup c s.connection_boards with
            | none => rfl
            | some b1 =>
                exfalso
                have := (hreg c).mpr (by rw [hh]; rfl)
                rw [hfreeB] at this
                cases this
          have hInv2 := RegInv_registry_join s c b hInv hfree
          apply ih (registry_join s c b) (c :: reg) hInv2 ?_ hwfrest
          intro x
          by_cases hx : x = c
          · subst hx
            constructor
            · intro _
              rw [show (registry_join s x b).connection_boards
                  = cbSet s.connection_boards x b from rfl, alookup_cbSet_self]
              rfl
            · intro _
              simp
          · constructor
            · intro hmem
              have hx2 : x ∈ c :: reg := by simpa using hmem
              have hx3 : x ∈ reg := by
                rcases List.mem_cons.mp hx2 with h | h
                · exact absurd h hx
                · exact h
              have hs0 := (hreg x).mp (by simpa using hx3)
              rw [show (registry_join s c b).connection_boards
                  = cbSet s.connection_boards c b from rfl, alookup_cbSet_other _ _ _ _ hx]
              exact hs0
            · intro hsome
              rw [show (registry_join s c b).connection_boards
                  = cbSet s.connection_boards c b from rfl,
                alookup_cbSet_other _ _ _ _ hx] at hsome
              have hx3 := (hreg x).mpr hsome
              have hx4 : x ∈ reg := by simpa using hx3
              simpa using List.mem_cons_of_mem c hx4
      | leave c =>
          have hInv2 := RegInv_disconnect s c hInv
          apply ih (disconnect s c) (reg.filter (fun y => !(y == c))) hInv2 ?_ hwf
          intro x
          by_cases hx : x = c
          · subst hx
            constructor
            · intro hmem
              exfalso
              have hm2 : x ∈ reg.filter (fun y => !(y == x)) := by simpa using hmem
              have hm3 := List.mem_filter.mp hm2
              simp at hm3
            · intro hsome
              exfalso
              cases hreg0 : alookup x s.connection_boards with
              | none =>
                  rw [disconnect_of_not_registered s x hreg0, hreg0] at hsome
                  cases hsome
              | some b0 =>
                  have hd : (disconnect s x).connection_boards
                      = cbRemove s.connection_boards x := by
                    unfold disconnect
                    rw [hreg0]
                  rw [hd, alookup_cbRemove_self] at hsome
                  cases hsome
          · constructor
            · intro hmem
              have hxr : x ∈ reg := by
                have hm2 : x ∈ reg.filter (fun y => !(y == c)) := by simpa using hmem
                exact (List.mem_filter.mp hm2).1
              have hsome0 := (hreg x).mp (by simpa using hxr)
              cases hreg0 : alookup c s.connection_boards with
              | none =>
                  rw [disconnect_of_not_registered s c hreg0]
                  exact hsome0
              | some b0 =>
                  have hd : (disconnect s c).connection_boards
                      = cbRemove s.connection_boards c := by
                    unfold disconnect
                    rw [hreg0]
                  rw [hd, alookup_cbRemove_other _ _ _ hx]
                  exact hsome0
            · intro hsome
              have hsome0 : (alookup x s.connection_boards).isSome = true := by
                cases hreg0 : alookup c s.connection_boards with
                | none =>
                    rw [disconnect_of_not_registered s c hreg0] at hsome
                    exact hsome
                | some b0 =>
                    have hd : (disconnect s c).connection_boards
                        = cbRemove s.connection_boards c := by
                      unfold disconnect
                      rw [hreg0]
                    rw [hd, alookup_cbRemove_other _ _ _ hx] at hsome
                    exact hsome
              have hxr := (hreg x).mpr hsome0
              have hxr2 : x ∈ reg := by simpa using hxr
              have hm2 : x ∈ reg.filter (fun y => !(y == c)) := by
                simp [List.mem_filter, hxr2, hx]
              simpa using hm2

theorem room_size_count (s : ManagerState) (hInv : RegInv s) (b : String) :
    get_room_size s b = (s.connection_boards.filter (fun p => p.2 == b)).length := by
  obtain ⟨cbN, rkN, rN, rNe, mIff⟩ := hInv
  have hnodup1 : (roomOf s b).Nodup := by
    rw [roomOf_def]
    cases hor : alookup b s.active_connections with
    | none => exact List.nodup_nil
    | some l0 => exact rN _ _ hor
  have hsub : List.Sublist
      ((s.connection_boards.filter (fun p => p.2 == b)).map Prod.fst)
      (s.connection_boards.map Prod.fst) := (List.filter_sublist _).map Prod.fst
  have hnodup2 := cbN.sublist hsub
  have hext : ∀ x, x ∈ roomOf s b
      ↔ x ∈ (s.connection_boards.filter (fun p => p.2 == b)).map Prod.fst := by
    intro x
    rw [mIff x b]
    constructor
    · intro hmem
      exact List.mem_map.mpr ⟨(x, b), List.mem_filter.mpr ⟨hmem, by simp⟩, rfl⟩
    · intro hmem
      obtain ⟨p, hp, hfst⟩ := List.mem_map.mp hmem
      obtain ⟨px, py⟩ := p
      obtain ⟨hpm, hpb⟩ := List.mem_filter.mp hp
      have hb2 : py = b := by simpa using hpb
      have hx2 : px = x := hfst
      subst hb2
      subst hx2
      exact hpm
  have hperm := (List.perm_ext_iff_of_nodup hnodup1 hnodup2).mpr hext
  have hlen := hperm.length_eq
  rw [show get_room_size s b = (roomOf s b).length from rfl, hlen, List.length_map]

/-- C6: over any realizable sequence of registry operations (each join
admits a connection not currently registered, as the transport
guarantees), room_size of a board equals the number of connections that
joined that room and have not left, with 0 for unknown boards by
construction of the lookup; leave is idempotent on every state; and the
registry never holds a room entry whose member list is empty. -/
theorem C6_registry_room_size (tr : List RegOp) (hwf : wellFormed tr = true) :
    (∀ b, get_room_size (run tr) b = joinedCount tr b)
    ∧ (∀ s c, disconnect (disconnect s c) c = disconnect s c)
    ∧ (∀ b l, alookup b (run tr).active_connections = some l → l ≠ []) := by
  have hInv : RegInv (run tr) := by
    apply runFrom_inv tr initManager [] RegInv_initManager ?_ hwf
    intro x
    simp [initManager, alookup]
  refine ⟨?_, ?_, ?_⟩
  · intro b
    rw [room_size_count (run tr) hInv b]
    have hcb : (run tr).connection_boards = registeredAfter tr := by
      rw [show run tr = runFrom initManager tr from rfl, runFrom_cb]
      rfl
    rw [hcb]
    rfl
  · intro s c
    cases hreg : alookup c s.connection_boards with
    | none =>
        rw [disconnect_of_not_registered s c hreg, disconnect_of_not_registered s c hreg]
    | some b0 =>
        have hd : (disconnect s c).connection_boards = cbRemove s.connection_boards c := by
          unfold disconnect
          rw [hreg]
        apply disconnect_of_not_registered
        rw [hd]
        exact alookup_cbRemove_self _ _
  · intro b l hl
    exact hInv.roomNonempty b l hl

/-- Witness for C6 at the concrete trace trC6: two joins into room A and
one leave give room size 1, matching the net count, and the remaining
room entry is the singleton of the second connection. -/
theorem C6_registry_room_size_witness :
    get_room_size (run trC6) "A" = joinedCount trC6 "A"
    ∧ disconnect (disconnect sPair 1) 1 = disconnect sPair 1
    ∧ (alookup "A" (run trC6).active_connections = some [2] → ([2] : List Nat) ≠ []) :=
  ⟨(C6_registry_room_size trC6 (by decide)).1 "A",
   (C6_registry_room_size trC6 (by decide)).2.1 sPair 1,
   (C6_registry_room_size trC6 (by decide)).2.2 "A" [2]⟩

theorem RegInv_of_wellFormed (tr : List RegOp) (hwf : wellFormed tr = true) :
    RegInv (run tr) := by
  apply runFrom_inv tr initManager [] RegInv_initManager ?_ hwf
  intro x
  simp [initManager, alookup]

theorem broadcast_delivers (s : ManagerState) (fails : Nat → Bool) (b : String)
    (msg : Event) (ex : Option Nat) (x : Nat)
    (hmem : x ∈ roomOf s b) (hex : ex ≠ some x) (hf : fails x = false) :
    (x, msg) ∈ (broadcast_to_room s fails b msg ex).2 := by
  unfold broadcast_to_room
  cases hor : alookup b s.active_connections with
  | none =>
      rw [roomOf_def, hor] at hmem
      cases hmem
  | some conns =>
      have hmem2 : x ∈ conns := by
        rw [roomOf_def, hor] at hmem
        simpa using hmem
      cases ex with
      | none =>
          show (x, msg) ∈ (conns.filter (fun c => !(fails c))).map (fun c => (c, msg))
          exact List.mem_map.mpr ⟨x, List.mem_filter.mpr ⟨hmem2, by simp [hf]⟩, rfl⟩
      | some e =>
          show (x, msg) ∈ (((conns.filter (fun c => !(c == e))).filter
            (fun c => !(fails c))).map (fun c => (c, msg)))
          have hne : x ≠ e := fun h => hex (congrArg some h.symm)
          exact List.mem_map.mpr ⟨x, List.mem_filter.mpr
            ⟨List.mem_filter.mpr ⟨hmem2, by simp [hne]⟩, by simp [hf]⟩, rfl⟩

theorem roomOf_disconnect_subset (s : ManagerState) (d : Nat) (b : String) (x : Nat)
    (hInv : RegInv s) (hx : x ∈ roomOf (disconnect s d) b) : x ∈ roomOf s b := by
  have hInv2 := RegInv_disconnect s d hInv
  have h1 := (hInv2.memIff x b).mp hx
  have h2 : (x, b) ∈ s.connection_boards := by
    cases hreg : alookup d s.connection_boards with
    | none =>
        rw [disconnect_of_not_registered s d hreg] at h1
        exact h1
    | some b0 =>
        have hd : (disconnect s d).connection_boards = cbRemove s.connection_boards d := by
          unfold disconnect
          rw [hreg]
        rw [hd] at h1
        exact mem_cbRemove_of_mem _ _ _ h1
  exact (hInv.memIff x b).mpr h2

theorem not_mem_roomOf_disconnect (s : ManagerState) (c : Nat) (b : String)
    (hInv : RegInv s) : c ∉ roomOf (disconnect s c) b := by
  intro hx
  have hInv2 := RegInv_disconnect s c hInv
  have h1 := (hInv2.memIff c b).mp hx
  cases hreg : alookup c s.connection_boards with
  | none =>
      rw [disconnect_of_not_registered s c hreg] at h1
      have h2 := alookup_isSome_of_mem _ _ _ h1
      rw [hreg] at h2
      cases h2
  | some b0 =>
      have hd : (disconnect s c).connection_boards = cbRemove s.connection_boards c := by
        unfold disconnect
        rw [hreg]
      rw [hd] at h1
      exact ((mem_cbRemove _ _ _ _).mp h1).2 rfl

theorem RegInv_foldl_disconnect (l : List Nat) : ∀ s : ManagerState, RegInv s →
    RegInv (l.foldl disconnect s) := by
  induction l with
  | nil => exact fun s h => h
  | cons d t ih => exact fun s h => ih (disconnect s d) (RegInv_disconnect s d h)

theorem not_mem_roomOf_foldl (l : List Nat) : ∀ (s : ManagerState) (c : Nat) (b : String),
    RegInv s → c ∉ roomOf s b → c ∉ roomOf (l.foldl disconnect s) b := by
  induction l with
  | nil => exact fun s c b _ h => h
  | cons d t ih =>
      intro s c b hInv hnot
      apply ih (disconnect s d) c b (RegInv_disconnect s d hInv)
      intro hx
      exact hnot (roomOf_disconnect_subset s d b c hInv hx)

theorem mem_evicted_not_in_room (l : List Nat) : ∀ (s : ManagerState) (c : Nat) (b : String),
    RegInv s → c ∈ l → c ∉ roomOf (l.foldl disconnect s) b := by
  induction l with
  | nil =>
      intro s c b _ h
      cases h
  | cons d t ih =>
      intro s c b hInv hc
      by_cases hcd : c = d
      · subst hcd
        apply not_mem_roomOf_foldl t (disconnect s c) c b (RegInv_disconnect s c hInv)
        exact not_mem_roomOf_disconnect s c b hInv
      · rcases List.mem_cons.mp hc with h | h
        · exact absurd h hcd
        · exact ih (disconnect s d) c b (RegInv_disconnect s d hInv) h

/-- C2: during broadcast_to_room on a reachable registry state, every
room member other than the excluded one whose send succeeds receives the
message regardless of other members failing, and every member whose send
fails is evicted, ending up absent from the room, so a subsequent
room_size no longer counts it. -/
theorem C2_broadcast_fault_isolation (s : ManagerState) (fails : Nat → Bool)
    (b : String) (msg : Event) (ex : Option Nat) (x : Nat)
    (hInv : RegInv s) (hmem : x ∈ roomOf s b) (hex : ex ≠ some x) :
    (fails x = false → (x, msg) ∈ (broadcast_to_room s fails b msg ex).2)
    ∧ (fails x = true → x ∉ roomOf (broadcast_to_room s fails b msg ex).1 b) := by
  constructor
  · exact fun hf => broadcast_delivers s fails b msg ex x hmem hex hf
  · intro hf
    unfold broadcast_to_room
    cases hor : alookup b s.active_connections with
    | none =>
        rw [roomOf_def, hor] at hmem
        cases hmem
    | some conns =>
        have hmem2 : x ∈ conns := by
          rw [roomOf_def, hor] at hmem
          simpa using hmem
        cases ex with
        | none =>
            show x ∉ roomOf ((conns.filter (fun c => fails c)).foldl disconnect s) b
            apply mem_evicted_not_in_room _ s x b hInv
            exact List.mem_filter.mpr ⟨hmem2, hf⟩
        | some e =>
            show x ∉ roomOf (((conns.filter (fun c => !(c == e))).filter
              (fun c => fails c)).foldl disconnect s) b
            apply mem_evicted_not_in_room _ s x b hInv
            apply List.mem_filter.mpr
            refine ⟨?_, hf⟩
            apply List.mem_filter.mpr
            have hne : x ≠ e := fun h => hex (congrArg some h.symm)
            exact ⟨hmem2, by simp [hne]⟩

/-- Witness for C2 on the two-member room: with connection 2 failing,
connection 1 still receives the message and connection 2 is gone from
the room afterwards. -/
theorem C2_broadcast_fault_isolation_witness :
    (1, Event.cursor_moved "d")
      ∈ (broadcast_to_room sPair (fun c => c == 2) "b" (Event.cursor_moved "d") none).2
    ∧ 2 ∉ roomOf
        (broadcast_to_room sPair (fun c => c == 2) "b" (Event.cursor_moved "d") none).1 "b" :=
  ⟨(C2_broadcast_fault_isolation sPair (fun c => c == 2) "b" (Event.cursor_moved "d")
      none 1 (RegInv_of_wellFormed [RegOp.join 1 "b", RegOp.join 2 "b"] (by decide))
      (by decide) (by decide)).1 rfl,
   (C2_broadcast_fault_isolation sPair (fun c => c == 2) "b" (Event.cursor_moved "d")
      none 2 (RegInv_of_wellFormed [RegOp.join 1 "b", RegOp.join 2 "b"] (by decide))
      (by decide) (by decide)).2 rfl⟩

/-- C5 counterexample: on the two-member room, a broadcast excluding
connection 1 with the send to connection 2 failing removes the
still-registered connection 2 via leave, yet the operation emits no
event at all, in particular no user_left broadcast to the remaining
member; the unicast path behaves the same way: a failing
send_personal_message to connection 2 evicts it and also emits
nothing. -/
theorem C5_counterexample_eviction_emits_no_user_left :
    2 ∈ roomOf sPair "b"
    ∧ 2 ∉ roomOf (broadcast_to_room sPair (fun c => c == 2) "b"
        (Event.cursor_moved "d") (some 1)).1 "b"
    ∧ (broadcast_to_room sPair (fun c => c == 2) "b"
        (Event.cursor_moved "d") (some 1)).2 = []
    ∧ 2 ∉ roomOf (send_personal_message sPair (fun c => c == 2) 2
        (Event.cursor_moved "d")).1 "b"
    ∧ (send_personal_message sPair (fun c => c == 2) 2
        (Event.cursor_moved "d")).2 = [] := by
  decide

/-- C5 amended: a send-failure eviction removes the connection silently
on both sending paths: broadcast_to_room emits only copies of the
broadcast message, and a failing send_personal_message evicts its target
via leave and emits nothing at all; a user_left broadcast with the
updated member count is produced only by the transport-disconnect path
of the endpoint, which delivers it to each remaining healthy member of
the room. -/
theorem C5_amended_user_left_only_on_transport_disconnect
    (s : ManagerState) (fails : Nat → Bool) (b : String) (msg : Event)
    (ex : Option Nat) (c x : Nat)
    (hx : x ∈ roomOf (disconnect s c) b) (hfx : fails x = false) :
    (∀ p ∈ (broadcast_to_room s fails b msg ex).2, p.2 = msg)
    ∧ (∀ y, fails y = true →
        send_personal_message s fails y msg = (disconnect s y, []))
    ∧ (x, Event.user_left b (get_room_size (disconnect s c) b))
        ∈ (websocket_disconnect_path s fails c b).2 := by
  refine ⟨?_, ?_, ?_⟩
  · intro p hp
    unfold broadcast_to_room at hp
    cases hor : alookup b s.active_connections with
    | none =>
        rw [hor] at hp
        cases hp
    | some conns =>
        rw [hor] at hp
        obtain ⟨y, hy, hyp⟩ := List.mem_map.mp hp
        rw [← hyp]
  · intro y hy
    unfold send_personal_message
    rw [hy]
    rfl
  · unfold websocket_disconnect_path
    exact broadcast_delivers (disconnect s c) fails b _ none x hx (by simp) hfx

/-- Witness for C5 amended: with the send to connection 2 failing, every
event a broadcast emits is a copy of the message, a failing unicast to
connection 2 evicts it and emits nothing, and the transport disconnect
of connection 2 delivers user_left with the updated count 1 to the
remaining healthy connection 1. -/
theorem C5_amended_user_left_witness :
    (∀ p ∈ (broadcast_to_room sPair (fun c => c == 2) "b"
        (Event.cursor_moved "d") (some 1)).2, p.2 = Event.cursor_moved "d")
    ∧ send_personal_message sPair (fun c => c == 2) 2 (Event.cursor_moved "d")
        = (disconnect sPair 2, [])
    ∧ (1, Event.user_left "b" (get_room_size (disconnect sPair 2) "b"))
        ∈ (websocket_disconnect_path sPair (fun c => c == 2) 2 "b").2 :=
  have h := C5_amended_user_left_only_on_transport_disconnect sPair (fun c => c == 2)
    "b" (Event.cursor_moved "d") (some 1) 2 1 (by decide) rfl
  ⟨h.1, h.2.1 2 rfl, h.2.2⟩

/-- C7: a malformed payload on an open session whose own channel is
healthy produces exactly one error event, unicast to the sender, with
registry and storage untouched and nothing delivered to anyone else, and
the session loop then processes the following inbound events exactly as
it would have without the malformed one. -/
theorem C7_malformed_payload_isolated (s : ManagerState) (st : Storage)
    (fails : Nat → Bool) (b : String) (sender : Nat) (rest : List (Option Message))
    (hf : fails sender = false) :
    handle_inbound s st fails b sender none
      = (s, st, [(sender, Event.error "Invalid JSON")])
    ∧ run_session fails b sender s st (none :: rest)
      = ((run_session fails b sender s st rest).1,
         (run_session fails b sender s st rest).2.1,
         (sender, Event.error "Invalid JSON")
           :: (run_session fails b sender s st rest).2.2) := by
  have h1 : handle_inbound s st fails b sender none
      = (s, st, [(sender, Event.error "Invalid JSON")]) := by
    unfold handle_inbound send_personal_message
    rw [hf]
    rfl
  refine ⟨h1, ?_⟩
  have h2 : run_session fails b sender s st (none :: rest)
      = (let r1 := handle_inbound s st fails b sender none
         let r2 := run_session fails b sender r1.1 r1.2.1 rest
         (r2.1, r2.2.1, r1.2.2 ++ r2.2.2)) := rfl
  rw [h2, h1]
  rfl

/-- Witness for C7 on a concrete session: the malformed payload yields
the single error unicast, and the following node_moved event is handled
as if the malformed one had never arrived. -/
theorem C7_malformed_payload_isolated_witness :
    handle_inbound sPair stEmptyOk (fun _ => false) "b" 1 none
      = (sPair, stEmptyOk, [(1, Event.error "Invalid JSON")])
    ∧ run_session (fun _ => false) "b" 1 sPair stEmptyOk (none :: [some msgMove])
      = ((run_session (fun _ => false) "b" 1 sPair stEmptyOk [some msgMove]).1,
         (run_session (fun _ => false) "b" 1 sPair stEmptyOk [some msgMove]).2.1,
         (1, Event.error "Invalid JSON")
           :: (run_session (fun _ => false) "b" 1 sPair stEmptyOk [some msgMove]).2.2) :=
  C7_malformed_payload_isolated sPair stEmptyOk (fun _ => false) "b" 1 [some msgMove] rfl

/-- C10: for a node_moved message carrying node_id, x and y, a storage
fault on the position update is absorbed inside the handler: the handler
returns normally with storage unchanged and rebroadcasts the same
node_moved payload to the room excluding the sender, exactly as with
healthy storage, delivering it to every other healthy member. -/
theorem C10_node_moved_storage_fault_isolated (s : ManagerState) (st : Storage)
    (fails : Nat → Bool) (b : String) (m : Message) (sender : Nat)
    (hn : truthy m.node_id = true) (hx : m.x.isSome = true) (hy : m.y.isSome = true) :
    (handle_node_moved s { st with updateFault := true } fails b m sender).2.1
        = { st with updateFault := true }
    ∧ (handle_node_moved s { st with updateFault := true } fails b m sender).2.2
        = (broadcast_to_room s fails b
            (Event.node_moved (m.node_id.getD "") (m.x.getD 0) (m.y.getD 0))
            (some sender)).2
    ∧ (handle_node_moved s { st with updateFault := true } fails b m sender).2.2
        = (handle_node_moved s st fails b m sender).2.2
    ∧ ∀ c, c ∈ roomOf s b → c ≠ sender → fails c = false →
        (c, Event.node_moved (m.node_id.getD "") (m.x.getD 0) (m.y.getD 0))
          ∈ (handle_node_moved s { st with updateFault := true } fails b m sender).2.2 := by
  obtain ⟨xv, hxv⟩ := Option.isSome_iff_exists.mp hx
  obtain ⟨yv, hyv⟩ := Option.isSome_iff_exists.mp hy
  have hcond : (!(truthy m.node_id) || m.x.isNone || m.y.isNone) = false := by
    rw [hn, hxv, hyv]
    rfl
  have e1 : (handle_node_moved s { st with updateFault := true } fails b m sender).2.1
      = { st with updateFault := true } := by
    unfold handle_node_moved
    rw [hcond]
    rfl
  have e2 : (handle_node_moved s { st with updateFault := true } fails b m sender).2.2
      = (broadcast_to_room s fails b
          (Event.node_moved (m.node_id.getD "") (m.x.getD 0) (m.y.getD 0))
          (some sender)).2 := by
    unfold handle_node_moved
    rw [hcond]
    rfl
  have e3 : (handle_node_moved s st fails b m sender).2.2
      = (broadcast_to_room s fails b
          (Event.node_moved (m.node_id.getD "") (m.x.getD 0) (m.y.getD 0))
          (some sender)).2 := by
    unfold handle_node_moved
    rw [hcond]
    rfl
  refine ⟨e1, e2, by rw [e2, e3], ?_⟩
  intro c hc hcs hcf
  rw [e2]
  apply broadcast_delivers s fails b _ (some sender) c hc ?_ hcf
  intro h
  exact hcs (Option.some.inj h).symm

/-- Witness for C10 on the two-member room with a faulting storage
update: the handler leaves the faulted storage unchanged and connection
2 still receives the node_moved payload. -/
theorem C10_node_moved_storage_fault_isolated_witness :
    (handle_node_moved sPair { stEmptyOk with updateFault := true }
        (fun _ => false) "b" msgMove 1).2.1 = { stEmptyOk with updateFault := true }
    ∧ (handle_node_moved sPair { stEmptyOk with updateFault := true }
        (fun _ => false) "b" msgMove 1).2.2
        = (broadcast_to_room sPair (fun _ => false) "b"
            (Event.node_moved (msgMove.node_id.getD "") (msgMove.x.getD 0)
              (msgMove.y.getD 0)) (some 1)).2
    ∧ (handle_node_moved sPair { stEmptyOk with updateFault := true }
        (fun _ => false) "b" msgMove 1).2.2
        = (handle_node_moved sPair stEmptyOk (fun _ => false) "b" msgMove 1).2.2
    ∧ ∀ c, c ∈ roomOf sPair "b" → c ≠ 1 → (fun _ => false) c = false →
        (c, Event.node_moved (msgMove.node_id.getD "") (msgMove.x.getD 0)
          (msgMove.y.getD 0))
          ∈ (handle_node_moved sPair { stEmptyOk with updateFault := true }
              (fun _ => false) "b" msgMove 1).2.2 :=
  C10_node_moved_storage_fault_isolated sPair stEmptyOk (fun _ => false) "b" msgMove 1
    rfl rfl rfl
